import Mathlib

set_option autoImplicit false

/-!
Verification of the event-driven processing backbone of the insurance-broker
CRM: event store, stream bus, consumer groups, dispatcher, idempotency guard,
retry/dead-letter policy, and the multi-tier commission computation.

The backend core is described by the repository's design documents
(`docs/case_study_complete.md`, the gap-analysis and progress notes); the
definitions below embed that design faithfully: pure functions for the
store/bus operations, explicit state passing for the worker/dispatcher loop,
and exact rational arithmetic for the `Decimal` commission amounts.
-/

namespace InsuranceCRM

/-- Structured event payload, keyed by event type.  The documents show
`QuoteAccepted` carrying the accepted quote's id and `PolicyCreated` carrying
the new policy's data (policy id, originating quote, annual premium and the
commission stakeholders) — "Complete: All data needed for processing included". -/
inductive Payload where
  | quoteAccepted (quote_id : Nat) (annual_premium : ℚ)
  | policyCreated (policy_id : Nat) (quote_id : Nat) (annual_premium : ℚ)
      (broker_id : Nat) (manager_id : Option Nat) (affiliate_id : Option Nat)
  | generic (tag : String)
deriving DecidableEq, Repr

/-- The immutable Event envelope:
`{event_id, event_type, aggregate_type, aggregate_id, data, metadata, occurred_at}`. -/
structure Event where
  event_id : Nat
  event_type : String
  aggregate_type : String
  aggregate_id : Nat
  payload : Payload
  occurred_at : Nat
deriving DecidableEq, Repr

/-- A stored event record: the Event plus the store-assigned, monotonically
increasing `sequence_number`. -/
structure StoredEventRecord where
  event : Event
  sequence_number : Nat
deriving DecidableEq, Repr

/-- Modelled from the spec: the Event Store, a durable append-only log of all
domain events (`event_store` table with `event_id UUID, unique`). -/
structure EventStore where
  records : List StoredEventRecord
deriving DecidableEq, Repr

def emptyStore : EventStore := { records := [] }

/-- Lookup of a stored record by its `event_id` (the unique key of the
`event_store` table). -/
def EventStore.findByEventId (s : EventStore) (eid : Nat) : Option StoredEventRecord :=
  s.records.find? (fun r => r.event.event_id == eid)

def EventStore.nextSequence (s : EventStore) : Nat :=
  s.records.length + 1

/-- Modelled from the spec: `append(event) -> sequence_number` — rejects if
`event_id` already present (duplicate publish is a no-op, returns the existing
sequence number); otherwise appends the record with the next sequence number.
The concrete store implementation is not under `src/`; this follows §4.1 of
the spec and the `event_store` schema in the case study. -/
def EventStore.append (s : EventStore) (e : Event) : EventStore × Nat :=
  match s.findByEventId e.event_id with
  | some r => (s, r.sequence_number)
  | none =>
      ({ records := s.records ++ [{ event := e, sequence_number := s.nextSequence }] },
       s.nextSequence)

theorem findByEventId_append_self (s : EventStore) (e : Event)
    (h : s.findByEventId e.event_id = none) :
    (EventStore.findByEventId
        { records := s.records ++ [{ event := e, sequence_number := s.nextSequence }] }
        e.event_id)
      = some { event := e, sequence_number := s.nextSequence } := by
  unfold EventStore.findByEventId at *
  simp [List.find?_append, h]

/-- C4: Event Store append is idempotent at the publisher boundary: appending
the same event a second time performs no new write (the store's contents are
unchanged) and returns the sequence number assigned by the first append. -/
theorem append_idempotent_at_publisher_boundary (s : EventStore) (e : Event) :
    ((s.append e).1.append e).1 = (s.append e).1 ∧
    ((s.append e).1.append e).2 = (s.append e).2 := by
  unfold EventStore.append
  cases h : s.findByEventId e.event_id with
  | some r => simp [EventStore.append, h]
  | none =>
      simp only [h]
      have h2 := findByEventId_append_self s e h
      simp [EventStore.append, h2]

/-! ## Multi-tier commission system (`CommissionService`) -/

/-- The three commission tiers of the multi-tier system. -/
inductive CommissionTier where
  | broker
  | manager
  | affiliate
deriving DecidableEq, Repr

/-- The `COMMISSION_RATES["initial"]` table of `CommissionService`: broker 15%,
manager 5%, affiliate 3% of the annual premium, exact `Decimal` values
(`Decimal("0.15")` etc.), embedded as exact rationals. -/
def COMMISSION_RATES_initial : CommissionTier → ℚ
  | .broker => 15 / 100
  | .manager => 5 / 100
  | .affiliate => 3 / 100

/-- The `COMMISSION_RATES["renewal_year1"]` table: broker 10%, manager 3%, affiliate 2%. -/
def COMMISSION_RATES_renewal_year1 : CommissionTier → ℚ
  | .broker => 10 / 100
  | .manager => 3 / 100
  | .affiliate => 2 / 100

/-- The `COMMISSION_RATES["renewal_recurring"]` table: broker 5%, manager 2%, affiliate 1%. -/
def COMMISSION_RATES_renewal_recurring : CommissionTier → ℚ
  | .broker => 5 / 100
  | .manager => 2 / 100
  | .affiliate => 1 / 100

/-- A commission row as produced by `CommissionService`: recipient, tier,
`commission_type`, `amount`, `percentage`, `base_amount` and `status`. -/
structure Commission where
  recipient_id : Nat
  tier : CommissionTier
  commission_type : String
  amount : ℚ
  percentage : ℚ
  base_amount : ℚ
  status : String
deriving DecidableEq, Repr

/-- One commission row of `commission_type = "initial"` for a given tier. -/
def initialCommissionRow (annual_premium : ℚ) (tier : CommissionTier)
    (recipient : Nat) : Commission :=
  { recipient_id := recipient
    tier := tier
    commission_type := "initial"
    amount := annual_premium * COMMISSION_RATES_initial tier
    percentage := COMMISSION_RATES_initial tier * 100
    base_amount := annual_premium
    status := "pending" }

/-- Embedding of `CommissionService.calculate_initial_commissions`: always a broker
commission at the broker rate; a manager commission at the manager rate when a
manager is supplied; an affiliate commission at the affiliate rate when an
affiliate is supplied.  Mirrors the service code shown in the case study and
gap-analysis documents (broker row appended first, then manager, then
affiliate, each guarded by presence of the stakeholder). -/
def calculate_initial_commissions (annual_premium : ℚ) (broker_id : Nat)
    (manager_id : Option Nat) (affiliate_id : Option Nat) : List Commission :=
  let brokerRows := [initialCommissionRow annual_premium .broker broker_id]
  let managerRows := match manager_id with
    | some m => [initialCommissionRow annual_premium .manager m]
    | none => []
  let affiliateRows := match affiliate_id with
    | some a => [initialCommissionRow annual_premium .affiliate a]
    | none => []
  brokerRows ++ managerRows ++ affiliateRows

/-- C9: `calculate_initial_commissions` pays the broker exactly `0.15 × P`,
adds a manager commission of exactly `0.05 × P` when a manager is supplied and
an affiliate commission of exactly `0.03 × P` when an affiliate is supplied,
in exact arithmetic; with all three tiers present the three amounts sum to
exactly `0.23 × P`. -/
theorem calculate_initial_commissions_exact (P : ℚ) (b m a : Nat) :
    ((calculate_initial_commissions P b none none).map Commission.amount
        = [15 / 100 * P]) ∧
    ((calculate_initial_commissions P b (some m) none).map Commission.amount
        = [15 / 100 * P, 5 / 100 * P]) ∧
    ((calculate_initial_commissions P b none (some a)).map Commission.amount
        = [15 / 100 * P, 3 / 100 * P]) ∧
    ((calculate_initial_commissions P b (some m) (some a)).map Commission.amount
        = [15 / 100 * P, 5 / 100 * P, 3 / 100 * P]) ∧
    ((calculate_initial_commissions P b (some m) (some a)).map Commission.amount).sum
        = 23 / 100 * P := by
  refine ⟨?_, ?_, ?_, ?_, ?_⟩ <;>
    simp [calculate_initial_commissions, initialCommissionRow,
      COMMISSION_RATES_initial, mul_comm]
  ring

/-! ## Stream Bus and Publisher -/

/-- A Stream Bus envelope wrapping an Event's `event_id` under a
stream-assigned `message_id` (a Redis Streams entry). -/
structure StreamMessage where
  message_id : Nat
  event_id : Nat
deriving DecidableEq, Repr

/-- Modelled from the spec: the publisher-side system state — the Event Store
(durable log) and one Stream Bus topic log (`insurance:events:*`). -/
structure PublisherState where
  store : EventStore
  bus : List StreamMessage
deriving DecidableEq, Repr

/-- Outcome of a `publish` call: success with the event id and the assigned
sequence number, or a durability failure surfaced to the caller. -/
inductive PublishResult where
  | ok (event_id : Nat) (sequence_number : Nat)
  | durabilityFailure
deriving DecidableEq, Repr

/-- Modelled from the spec: `publish(event)` — write the Event to the Event
Store first (durability), then publish a message to the Stream Bus (`xadd`).
The `storeWriteOk` flag simulates an Event Store write failure as the spec's
testable property demands; on failure the action is not committed: the state
is returned unchanged (append is atomic per event, no partial record) and no
message is added to the bus. -/
def publish (storeWriteOk : Bool) (sys : PublisherState) (e : Event) :
    PublisherState × PublishResult :=
  if storeWriteOk then
    let appended := sys.store.append e
    let msg : StreamMessage := { message_id := sys.bus.length + 1, event_id := e.event_id }
    ({ store := appended.1, bus := sys.bus ++ [msg] }, .ok e.event_id appended.2)
  else
    (sys, .durabilityFailure)

/-- C2: durability precedes acknowledgment.  When the Event Store write fails,
`publish` reports `durabilityFailure` and the whole state is unchanged — no
partial store record and no Stream Bus message for the event; when the store
write commits, `publish` returns success and the event is present in the store
and announced on the bus. -/
theorem publish_durability_precedes_acknowledgment (sys : PublisherState) (e : Event) :
    (publish false sys e).2 = .durabilityFailure ∧
    (publish false sys e).1 = sys ∧
    (publish false sys e).1.store = sys.store ∧
    (publish false sys e).1.bus = sys.bus ∧
    (publish true sys e).2 = .ok e.event_id (sys.store.append e).2 ∧
    ((publish true sys e).1.store.findByEventId e.event_id).isSome = true ∧
    ((publish true sys e).1.bus.filter (fun m => m.event_id == e.event_id)) ≠ [] := by
  refine ⟨rfl, rfl, rfl, rfl, rfl, ?_, ?_⟩
  · show ((sys.store.append e).1.findByEventId e.event_id).isSome = true
    unfold EventStore.append
    cases h : sys.store.findByEventId e.event_id with
    | some r => simpa [EventStore.findByEventId] using congrArg Option.isSome h
    | none => simp [findByEventId_append_self sys.store e h]
  · simp [publish, List.filter_append]

/-! ## Business state and event handlers -/

/-- A quote row (only the fields the backbone touches). -/
structure Quote where
  quote_id : Nat
  annual_premium : ℚ
  status : String
deriving DecidableEq, Repr

/-- A policy row; `quote_id` carries the UNIQUE constraint (one-to-one with the
accepted quote). -/
structure Policy where
  policy_id : Nat
  quote_id : Nat
  policy_number : String
  status : String
deriving DecidableEq, Repr

/-- A persisted commission row, keyed by the policy it belongs to. -/
structure CommissionRow where
  policy_id : Nat
  commission : Commission
deriving DecidableEq, Repr

/-- Modelled from the spec: the persisted business state the handlers write to
(ordinary relational tables; the Event Store is a side audit log).  `published`
collects the follow-up events a handler emits (e.g. `PolicyCreated`). -/
structure BizState where
  quotes : List Quote
  policies : List Policy
  commissions : List CommissionRow
  documents : List (Nat × String)
  emails_sent : List Nat
  published : List Event
deriving DecidableEq, Repr

def emptyBiz : BizState :=
  { quotes := [], policies := [], commissions := [], documents := [],
    emails_sent := [], published := [] }

/-- Idempotency guard of the policy-creation handler: does a policy already
exist for this quote? (`check if policy exists`). -/
def policy_exists (s : BizState) (qid : Nat) : Bool :=
  s.policies.any (fun p => p.quote_id == qid)

/-- Idempotency guard of the commission handler: do commission rows already
exist for this policy? (`commissions_exist_for_policy`). -/
def commissions_exist_for_policy (s : BizState) (pid : Nat) : Bool :=
  s.commissions.any (fun c => c.policy_id == pid)

/-- Idempotency guard of the PDF handler: is a document path already recorded
for this policy? -/
def document_exists (s : BizState) (pid : Nat) : Bool :=
  s.documents.any (fun d => d.1 == pid)

/-- Idempotency guard of the notification handler: was the confirmation email
for this policy already sent? -/
def email_sent (s : BizState) (pid : Nat) : Bool :=
  s.emails_sent.any (fun n => n == pid)

def next_policy_id (s : BizState) : Nat :=
  s.policies.length + 1

/-- The `PolicyCreated` event a successful policy creation publishes. -/
def policyCreatedEvent (pid qid : Nat) (prem : ℚ) (broker : Nat)
    (manager affiliate : Option Nat) : Event :=
  { event_id := 1000 + pid
    event_type := "PolicyCreated"
    aggregate_type := "policy"
    aggregate_id := pid
    payload := .policyCreated pid qid prem broker manager affiliate
    occurred_at := 0 }

/-- Modelled from the spec: stakeholder lookup used by the saga — the broker
assigned to the quote's prospect, the broker's supervisor as manager, and an
optional referring affiliate. -/
structure StakeholderDirectory where
  broker_of : Nat → Nat
  manager_of : Nat → Option Nat
  affiliate_of : Nat → Option Nat

/-- An event handler as registered with the dispatcher. -/
structure Handler where
  name : String
  handle : BizState → Event → BizState

/-- Modelled from the spec: `PolicyCreationHandler` — on `QuoteAccepted`,
check if the policy exists (idempotency), generate the policy number, create
the policy if not exists, and publish `PolicyCreated`. -/
def PolicyCreationHandler (env : StakeholderDirectory) : Handler :=
  { name := "PolicyCreationHandler"
    handle := fun s e =>
      match e.payload with
      | .quoteAccepted qid prem =>
          if policy_exists s qid then s
          else
            let pid := next_policy_id s
            let broker := env.broker_of qid
            { s with
                policies := s.policies ++
                  [{ policy_id := pid, quote_id := qid,
                     policy_number := "INS-2025-" ++ toString pid, status := "active" }],
                published := s.published ++
                  [policyCreatedEvent pid qid prem broker
                    (env.manager_of broker) (env.affiliate_of qid)] }
      | _ => s }

/-- Modelled from the spec: `CommissionCalculationHandler` — on
`PolicyCreated`, check idempotency (avoid duplicate commissions), then insert
the rows produced by `CommissionService.calculate_initial_commissions`. -/
def CommissionCalculationHandler : Handler :=
  { name := "CommissionCalculationHandler"
    handle := fun s e =>
      match e.payload with
      | .policyCreated pid _ prem broker manager affiliate =>
          if commissions_exist_for_policy s pid then s
          else
            let rows : List CommissionRow :=
              (calculate_initial_commissions prem broker manager affiliate).map
                (fun c => { policy_id := pid, commission := c })
            { s with commissions := s.commissions ++ rows }
      | _ => s }

/-- Modelled from the spec: `PolicyPDFGenerationHandler` — idempotent on
whether a document path is already recorded for the policy. -/
def PolicyPDFGenerationHandler : Handler :=
  { name := "PolicyPDFGenerationHandler"
    handle := fun s e =>
      match e.payload with
      | .policyCreated pid _ _ _ _ _ =>
          if document_exists s pid then s
          else
            { s with documents := s.documents ++
                [(pid, "contracts/policy_" ++ toString pid ++ ".pdf")] }
      | _ => s }

/-- Modelled from the spec: `PolicyEmailNotificationHandler` — idempotent on
whether the confirmation email was already recorded as sent. -/
def PolicyEmailNotificationHandler : Handler :=
  { name := "PolicyEmailNotificationHandler"
    handle := fun s e =>
      match e.payload with
      | .policyCreated pid _ _ _ _ _ =>
          if email_sent s pid then s
          else { s with emails_sent := s.emails_sent ++ [pid] }
      | _ => s }

/-- Modelled from the spec: the handler registry, a table mapping an event
type to the handlers subscribed to it (`registry[event.event_type]`). -/
def registry (env : StakeholderDirectory) : String → List Handler
  | "QuoteAccepted" => [PolicyCreationHandler env]
  | "PolicyCreated" =>
      [PolicyPDFGenerationHandler, CommissionCalculationHandler,
       PolicyEmailNotificationHandler]
  | _ => []

/-- Number of policy rows persisted for a given quote. -/
def countPoliciesFor (s : BizState) (qid : Nat) : Nat :=
  s.policies.countP (fun p => p.quote_id == qid)

theorem policy_creation_handle_idem (env : StakeholderDirectory)
    (s : BizState) (e : Event) :
    (PolicyCreationHandler env).handle ((PolicyCreationHandler env).handle s e) e
      = (PolicyCreationHandler env).handle s e := by
  simp only [PolicyCreationHandler]
  cases hp : e.payload with
  | quoteAccepted qid prem =>
      by_cases hex : policy_exists s qid = true
      · simp [hp, hex]
      · have hex2 : policy_exists
            { s with
                policies := s.policies ++
                  [{ policy_id := next_policy_id s, quote_id := qid,
                     policy_number := "INS-2025-" ++ toString (next_policy_id s),
                     status := "active" }],
                published := s.published ++
                  [policyCreatedEvent (next_policy_id s) qid prem (env.broker_of qid)
                    (env.manager_of (env.broker_of qid)) (env.affiliate_of qid)] }
            qid = true := by
          simp [policy_exists, List.any_append]
        simp [hp, hex, hex2]
  | policyCreated pid qid prem b m a => simp [hp]
  | generic tag => simp [hp]

theorem commission_handle_idem (s : BizState) (e : Event) :
    CommissionCalculationHandler.handle (CommissionCalculationHandler.handle s e) e
      = CommissionCalculationHandler.handle s e := by
  simp only [CommissionCalculationHandler]
  cases hp : e.payload with
  | policyCreated pid qid prem b m a =>
      by_cases hex : commissions_exist_for_policy s pid = true
      · simp [hp, hex]
      · have hex2 : commissions_exist_for_policy
            { s with commissions := s.commissions ++
                ((calculate_initial_commissions prem b m a).map
                  (fun c => ({ policy_id := pid, commission := c } : CommissionRow))) }
            pid = true := by
          simp [commissions_exist_for_policy, List.any_append,
            calculate_initial_commissions]
        simp [hp, hex, hex2]
  | quoteAccepted qid prem => simp [hp]
  | generic tag => simp [hp]

theorem pdf_handle_idem (s : BizState) (e : Event) :
    PolicyPDFGenerationHandler.handle (PolicyPDFGenerationHandler.handle s e) e
      = PolicyPDFGenerationHandler.handle s e := by
  simp only [PolicyPDFGenerationHandler]
  cases hp : e.payload with
  | policyCreated pid qid prem b m a =>
      by_cases hex : document_exists s pid = true
      · simp [hp, hex]
      · have hex2 : document_exists
            { s with documents := s.documents ++
                [(pid, "contracts/policy_" ++ toString pid ++ ".pdf")] } pid = true := by
          simp [document_exists, List.any_append]
        simp [hp, hex, hex2]
  | quoteAccepted qid prem => simp [hp]
  | generic tag => simp [hp]

theorem email_handle_idem (s : BizState) (e : Event) :
    PolicyEmailNotificationHandler.handle (PolicyEmailNotificationHandler.handle s e) e
      = PolicyEmailNotificationHandler.handle s e := by
  simp only [PolicyEmailNotificationHandler]
  cases hp : e.payload with
  | policyCreated pid qid prem b m a =>
      by_cases hex : email_sent s pid = true
      · simp [hp, hex]
      · have hex2 : email_sent
            { s with emails_sent := s.emails_sent ++ [pid] } pid = true := by
          simp [email_sent, List.any_append]
        simp [hp, hex, hex2]
  | quoteAccepted qid prem => simp [hp]
  | generic tag => simp [hp]

/-- Concrete stakeholder directory for the worked example. -/
def demoDirectory : StakeholderDirectory :=
  { broker_of := fun _ => 1
    manager_of := fun _ => some 10
    affiliate_of := fun _ => some 20 }

/-- The `QuoteAccepted{quote_id=7}` event of the spec's example. -/
def quoteAcceptedSeven : Event :=
  { event_id := 100
    event_type := "QuoteAccepted"
    aggregate_type := "quote"
    aggregate_id := 7
    payload := .quoteAccepted 7 1500
    occurred_at := 1 }

/-- C1: every registered handler is idempotent — invoking it on the same event
twice (as happens under redelivery) leaves the persisted business state equal
to the state after one invocation; in particular delivering
`QuoteAccepted{quote_id=7}` twice yields exactly one Policy row for quote 7,
and the second delivery performs no additional effect. -/
theorem handler_idempotent_effect :
    (∀ (env : StakeholderDirectory) (t : String) (H : Handler), H ∈ registry env t →
      ∀ (s : BizState) (e : Event), H.handle (H.handle s e) e = H.handle s e) ∧
    countPoliciesFor
      ((PolicyCreationHandler demoDirectory).handle
        ((PolicyCreationHandler demoDirectory).handle emptyBiz quoteAcceptedSeven)
        quoteAcceptedSeven) 7 = 1 ∧
    (PolicyCreationHandler demoDirectory).handle
        ((PolicyCreationHandler demoDirectory).handle emptyBiz quoteAcceptedSeven)
        quoteAcceptedSeven
      = (PolicyCreationHandler demoDirectory).handle emptyBiz quoteAcceptedSeven := by
  refine ⟨?_, by decide, policy_creation_handle_idem demoDirectory emptyBiz quoteAcceptedSeven⟩
  intro env t H hH s e
  have hcases : H = PolicyCreationHandler env ∨ H = PolicyPDFGenerationHandler ∨
      H = CommissionCalculationHandler ∨ H = PolicyEmailNotificationHandler := by
    unfold registry at hH
    split at hH <;> simp at hH <;> tauto
  rcases hcases with h | h | h | h <;> subst h
  · exact policy_creation_handle_idem env s e
  · exact pdf_handle_idem s e
  · exact commission_handle_idem s e
  · exact email_handle_idem s e

/-- Witness for C1 at a concrete registered handler and event. -/
theorem handler_idempotent_effect_witness :
    PolicyCreationHandler demoDirectory ∈ registry demoDirectory "QuoteAccepted" ∧
    (PolicyCreationHandler demoDirectory).handle
        ((PolicyCreationHandler demoDirectory).handle emptyBiz quoteAcceptedSeven)
        quoteAcceptedSeven
      = (PolicyCreationHandler demoDirectory).handle emptyBiz quoteAcceptedSeven :=
  ⟨by simp [registry],
   handler_idempotent_effect.1 demoDirectory "QuoteAccepted"
     (PolicyCreationHandler demoDirectory) (by simp [registry])
     emptyBiz quoteAcceptedSeven⟩

/-! ## Consumer group, retry and dead-letter policy -/

/-- An entry of a consumer group's pending-entries list: a delivered but not
yet acknowledged message. -/
structure PendingEntry where
  message_id : Nat
  consumer : String
  delivered_at : Nat
  attempt_count : Nat
deriving DecidableEq, Repr

/-- A dead-letter record: the full Event payload plus
`{error_message, attempt_count, failed_at}`. -/
structure DeadLetterRecord where
  message_id : Nat
  event : Event
  error_message : String
  attempt_count : Nat
  failed_at : Nat
deriving DecidableEq, Repr

/-- Modelled from the spec: per (stream, group) consumer-group state — the
pending-entries list of delivered-but-unacknowledged messages, the
acknowledged ids, and the group's dead-letter stream. -/
structure ConsumerGroupState where
  pending : List PendingEntry
  acked : List Nat
  dead_letters : List DeadLetterRecord
deriving DecidableEq, Repr

/-- Modelled from the spec: `ack(handle, message_id)` — removes the message
from the group's pending-entries list. -/
def ConsumerGroupState.ackMsg (g : ConsumerGroupState) (mid : Nat) : ConsumerGroupState :=
  { g with
      pending := g.pending.filter (fun p => p.message_id != mid)
      acked := g.acked ++ [mid] }

/-- Modelled from the spec: dead-letter routing — append a record carrying the
full Event payload plus error context, and acknowledge the original message
(stopping further retries). -/
def ConsumerGroupState.deadLetterMsg (g : ConsumerGroupState) (mid : Nat) (e : Event)
    (err : String) (attempts failed_at : Nat) : ConsumerGroupState :=
  { pending := g.pending.filter (fun p => p.message_id != mid)
    acked := g.acked ++ [mid]
    dead_letters := g.dead_letters ++
      [{ message_id := mid, event := e, error_message := err,
         attempt_count := attempts, failed_at := failed_at }] }

/-- Modelled from the spec: a transient failure — the message stays
unacknowledged on the pending list and its attempt counter increments. -/
def ConsumerGroupState.bumpAttempt (g : ConsumerGroupState) (mid : Nat) : ConsumerGroupState :=
  { g with
      pending := g.pending.map (fun p =>
        if p.message_id == mid then { p with attempt_count := p.attempt_count + 1 } else p) }

/-- Modelled from the spec: `claim_stale(handle, min_idle_time)` — reassigns
messages pending longer than `min_idle_time` to a live consumer and returns
them for redelivery. -/
def claim_stale (g : ConsumerGroupState) (now min_idle : Nat) (consumer : String) :
    ConsumerGroupState × List PendingEntry :=
  let reclaimed := (g.pending.filter (fun p => decide (min_idle ≤ now - p.delivered_at))).map
    (fun p => { p with consumer := consumer, delivered_at := now })
  ({ g with pending := g.pending.map (fun p =>
        if decide (min_idle ≤ now - p.delivered_at)
        then { p with consumer := consumer, delivered_at := now } else p) },
   reclaimed)

/-- Outcome of one handler execution, per the spec's failure taxonomy. -/
inductive HandlerOutcome where
  | success
  | transient
  | permanent
deriving DecidableEq, Repr

/-- What the worker does with a message after running its handlers. -/
inductive DispatchDecision where
  | ackMessage
  | retryLater
  | deadLetterMessage
deriving DecidableEq, Repr

/-- Modelled from the spec: the worker's acknowledgment rule — on success of
all handlers, ack; on any handler failure, do not ack (triggers redelivery)
unless the failure is classified permanent, in which case the message is
routed to the dead-letter channel (which also acknowledges the original). -/
def dispatchDecision (results : List HandlerOutcome) : DispatchDecision :=
  if results.all (fun r => r == .success) then .ackMessage
  else if results.any (fun r => r == .transient) then .retryLater
  else .deadLetterMessage

/-- Apply a dispatch decision to the consumer-group state. -/
def applyDecision (d : DispatchDecision) (g : ConsumerGroupState) (mid : Nat)
    (e : Event) (err : String) (attempt now : Nat) : ConsumerGroupState :=
  match d with
  | .ackMessage => g.ackMsg mid
  | .retryLater => g.bumpAttempt mid
  | .deadLetterMessage => g.deadLetterMsg mid e err attempt now

/-- Modelled from the spec: the per-message retry loop under at-least-once
delivery — each unacknowledged attempt is followed by a redelivery (via
`claim_stale`), the attempt counter increments, and a bounded retry budget
routes the message to the dead-letter channel when exhausted. -/
def redeliveryLoop (outcomes : Nat → HandlerOutcome) (g : ConsumerGroupState)
    (mid : Nat) (e : Event) (now attempt : Nat) : Nat → ConsumerGroupState
  | 0 => g.deadLetterMsg mid e "retry budget exhausted" attempt now
  | budget + 1 =>
      match outcomes attempt with
      | .success => g.ackMsg mid
      | .permanent => g.deadLetterMsg mid e "permanent handler failure" attempt now
      | .transient =>
          redeliveryLoop outcomes (g.bumpAttempt mid) mid e now (attempt + 1) budget

theorem redeliveryLoop_resolves (outcomes : Nat → HandlerOutcome) (mid : Nat)
    (e : Event) (now : Nat) (budget : Nat) :
    ∀ (g : ConsumerGroupState) (attempt : Nat),
      mid ∈ (redeliveryLoop outcomes g mid e now attempt budget).acked ∨
      mid ∈ (redeliveryLoop outcomes g mid e now attempt budget).dead_letters.map
        (fun r => r.message_id) := by
  induction budget with
  | zero =>
      intro g attempt
      right
      simp [redeliveryLoop, ConsumerGroupState.deadLetterMsg]
  | succ b ih =>
      intro g attempt
      cases h : outcomes attempt with
      | success =>
          left
          simp [redeliveryLoop, h, ConsumerGroupState.ackMsg]
      | permanent =>
          right
          simp [redeliveryLoop, h, ConsumerGroupState.deadLetterMsg]
      | transient =>
          simpa [redeliveryLoop, h] using ih (g.bumpAttempt mid) (attempt + 1)

/-- C3: no message is silently dropped.  (i) A pending message older than the
idle threshold is reclaimable: `claim_stale` returns it, reassigned to the
live consumer.  (ii) Whatever the worker decides about a message, every
pending entry either remains pending, or its id is acknowledged, or its id is
dead-lettered.  (iii) The redelivery loop resolves every message within the
retry budget: it ends acknowledged or dead-lettered. -/
theorem at_least_once_no_silent_drop (g : ConsumerGroupState) (now min_idle : Nat)
    (consumer : String) :
    (∀ p ∈ g.pending, min_idle ≤ now - p.delivered_at →
      ∃ q ∈ (claim_stale g now min_idle consumer).2,
        q.message_id = p.message_id ∧ q.consumer = consumer) ∧
    (∀ (d : DispatchDecision) (mid : Nat) (e : Event) (err : String) (a n : Nat),
      ∀ p ∈ g.pending,
        (∃ q ∈ (applyDecision d g mid e err a n).pending, q.message_id = p.message_id) ∨
        p.message_id ∈ (applyDecision d g mid e err a n).acked ∨
        p.message_id ∈ (applyDecision d g mid e err a n).dead_letters.map
          (fun r => r.message_id)) ∧
    (∀ (outcomes : Nat → HandlerOutcome) (mid : Nat) (e : Event) (attempt budget : Nat),
      mid ∈ (redeliveryLoop outcomes g mid e now attempt budget).acked ∨
      mid ∈ (redeliveryLoop outcomes g mid e now attempt budget).dead_letters.map
        (fun r => r.message_id)) := by
  refine ⟨?_, ?_, ?_⟩
  · intro p hp hidle
    refine ⟨{ p with consumer := consumer, delivered_at := now }, ?_, rfl, rfl⟩
    exact List.mem_map_of_mem _ (List.mem_filter.mpr ⟨hp, by simpa using hidle⟩)
  · intro d mid e err a n p hp
    cases d with
    | ackMessage =>
        by_cases hm : p.message_id = mid
        · right; left
          simp [applyDecision, ConsumerGroupState.ackMsg, hm]
        · left
          exact ⟨p, List.mem_filter.mpr ⟨hp, by simpa using hm⟩, rfl⟩
    | retryLater =>
        left
        by_cases hm : p.message_id = mid
        · refine ⟨{ p with attempt_count := p.attempt_count + 1 }, ?_, rfl⟩
          simpa [applyDecision, ConsumerGroupState.bumpAttempt, hm] using
            List.mem_map_of_mem
              (fun q => if q.message_id == mid
                then { q with attempt_count := q.attempt_count + 1 } else q) hp
        · refine ⟨p, ?_, rfl⟩
          simpa [applyDecision, ConsumerGroupState.bumpAttempt, hm] using
            List.mem_map_of_mem
              (fun q => if q.message_id == mid
                then { q with attempt_count := q.attempt_count + 1 } else q) hp
    | deadLetterMessage =>
        by_cases hm : p.message_id = mid
        · right; right
          simp [applyDecision, ConsumerGroupState.deadLetterMsg, hm]
        · left
          exact ⟨p, List.mem_filter.mpr ⟨hp, by simpa using hm⟩, rfl⟩
  · intro outcomes mid e attempt budget
    exact redeliveryLoop_resolves outcomes mid e now budget g attempt

/-- Witness for C3 at a concrete group state, message and threshold. -/
theorem at_least_once_no_silent_drop_witness :
    ∃ q ∈ (claim_stale
        { pending := [{ message_id := 5, consumer := "worker-1",
                        delivered_at := 0, attempt_count := 0 }],
          acked := [], dead_letters := [] } 30 10 "worker-2").2,
      q.message_id = 5 ∧ q.consumer = "worker-2" := by
  have h := (at_least_once_no_silent_drop
    { pending := [{ message_id := 5, consumer := "worker-1",
                    delivered_at := 0, attempt_count := 0 }],
      acked := [], dead_letters := [] } 30 10 "worker-2").1
    { message_id := 5, consumer := "worker-1", delivered_at := 0, attempt_count := 0 }
    (by simp) (by norm_num)
  exact h

theorem bumpAttempt_mem (g : ConsumerGroupState) (mid : Nat) (p : PendingEntry)
    (hp : p ∈ g.pending) :
    ∃ q ∈ (g.bumpAttempt mid).pending, q.message_id = p.message_id := by
  by_cases hm : p.message_id = mid
  · refine ⟨{ p with attempt_count := p.attempt_count + 1 }, ?_, rfl⟩
    simpa [ConsumerGroupState.bumpAttempt, hm] using
      List.mem_map_of_mem
        (fun q => if q.message_id == mid
          then { q with attempt_count := q.attempt_count + 1 } else q) hp
  · refine ⟨p, ?_, rfl⟩
    simpa [ConsumerGroupState.bumpAttempt, hm] using
      List.mem_map_of_mem
        (fun q => if q.message_id == mid
          then { q with attempt_count := q.attempt_count + 1 } else q) hp

theorem all_success_iff (results : List HandlerOutcome) :
    results.all (fun r => r == HandlerOutcome.success) = true ↔
      ∀ r ∈ results, r = HandlerOutcome.success := by
  simp [List.all_eq_true]

theorem any_transient_iff (results : List HandlerOutcome) :
    results.any (fun r => r == HandlerOutcome.transient) = true ↔
      ∃ r ∈ results, r = HandlerOutcome.transient := by
  simp [List.any_eq_true]

theorem dispatchDecision_eq_ack_iff (results : List HandlerOutcome) :
    dispatchDecision results = .ackMessage ↔
      results.all (fun r => r == HandlerOutcome.success) = true := by
  unfold dispatchDecision
  split_ifs with h1 h2 <;> simp [h1]

theorem dispatchDecision_eq_retry_iff (results : List HandlerOutcome) :
    dispatchDecision results = .retryLater ↔
      (¬ results.all (fun r => r == HandlerOutcome.success) = true ∧
       results.any (fun r => r == HandlerOutcome.transient) = true) := by
  unfold dispatchDecision
  split_ifs with h1 h2 <;> simp [*]

theorem dispatchDecision_eq_dl_iff (results : List HandlerOutcome) :
    dispatchDecision results = .deadLetterMessage ↔
      (¬ results.all (fun r => r == HandlerOutcome.success) = true ∧
       ¬ results.any (fun r => r == HandlerOutcome.transient) = true) := by
  unfold dispatchDecision
  split_ifs with h1 h2 <;> simp [*]

/-- A one-message consumer-group state used by the concrete witnesses. -/
def demoGroup : ConsumerGroupState :=
  { pending := [{ message_id := 5, consumer := "worker-1",
                  delivered_at := 0, attempt_count := 0 }]
    acked := []
    dead_letters := [] }

/-- C6: the worker acknowledges a delivered message exactly when every handler
registered for the event's type completed successfully or the failure was
classified permanent (dead-letter routing also acknowledges); it acks cleanly
exactly when all handlers succeeded; on any non-permanent (transient) failure
the message is not acknowledged and every pending entry stays on the group's
pending-entries list, to be redelivered. -/
theorem ack_iff_all_success_or_permanent (results : List HandlerOutcome)
    (g : ConsumerGroupState) (mid : Nat) (e : Event) (err : String)
    (attempt now : Nat) :
    (dispatchDecision results = .ackMessage ↔ ∀ r ∈ results, r = .success) ∧
    ((dispatchDecision results = .ackMessage ∨
        dispatchDecision results = .deadLetterMessage) ↔
      ∀ r ∈ results, r ≠ .transient) ∧
    (dispatchDecision results = .retryLater →
      (applyDecision .retryLater g mid e err attempt now).acked = g.acked ∧
      ∀ p ∈ g.pending,
        ∃ q ∈ (applyDecision .retryLater g mid e err attempt now).pending,
          q.message_id = p.message_id) := by
  refine ⟨?_, ?_, ?_⟩
  · rw [dispatchDecision_eq_ack_iff, all_success_iff]
  · constructor
    · rintro (h | h) <;> intro r hr ht
      · have hall := (all_success_iff results).mp
          ((dispatchDecision_eq_ack_iff results).mp h)
        exact HandlerOutcome.noConfusion (ht.symm.trans (hall r hr))
      · have hdl := (dispatchDecision_eq_dl_iff results).mp h
        exact hdl.2 ((any_transient_iff results).mpr ⟨r, hr, ht⟩)
    · intro hall
      by_cases h1 : results.all (fun r => r == HandlerOutcome.success) = true
      · exact Or.inl ((dispatchDecision_eq_ack_iff results).mpr h1)
      · refine Or.inr ((dispatchDecision_eq_dl_iff results).mpr ⟨h1, ?_⟩)
        intro hc
        rcases (any_transient_iff results).mp hc with ⟨r, hr, hrt⟩
        exact hall r hr hrt
  · intro _
    exact ⟨rfl, fun p hp => bumpAttempt_mem g mid p hp⟩

/-- Witness for C6: a single transient handler failure leaves the message
unacknowledged and still pending. -/
theorem ack_iff_all_success_or_permanent_witness :
    (applyDecision .retryLater demoGroup 5 quoteAcceptedSeven "timeout" 0 9).acked
      = demoGroup.acked ∧
    ∃ q ∈ (applyDecision .retryLater demoGroup 5 quoteAcceptedSeven "timeout" 0 9).pending,
      q.message_id = 5 := by
  have h := (ack_iff_all_success_or_permanent [HandlerOutcome.transient]
    demoGroup 5 quoteAcceptedSeven "timeout" 0 9).2.2 (by decide)
  refine ⟨h.1, ?_⟩
  have h2 := h.2 { message_id := 5, consumer := "worker-1",
                   delivered_at := 0, attempt_count := 0 } (by simp [demoGroup])
  simpa using h2

/-- C8: when a handler raises a non-retryable (permanent) error (and no
handler failed transiently), the dispatcher routes the message to the
dead-letter channel with a record carrying the full Event payload plus error
context (`error_message`, `attempt_count`, `failed_at`), and acknowledges the
original message so it is no longer pending and no further retries occur. -/
theorem permanent_failure_dead_letter_routing (results : List HandlerOutcome)
    (g : ConsumerGroupState) (mid : Nat) (e : Event) (err : String)
    (attempt now : Nat)
    (hperm : HandlerOutcome.permanent ∈ results)
    (htrans : HandlerOutcome.transient ∉ results) :
    dispatchDecision results = .deadLetterMessage ∧
    (applyDecision (dispatchDecision results) g mid e err attempt now).dead_letters
      = g.dead_letters ++
        [{ message_id := mid, event := e, error_message := err,
           attempt_count := attempt, failed_at := now }] ∧
    mid ∈ (applyDecision (dispatchDecision results) g mid e err attempt now).acked ∧
    ∀ p ∈ (applyDecision (dispatchDecision results) g mid e err attempt now).pending,
      p.message_id ≠ mid := by
  have hdec : dispatchDecision results = .deadLetterMessage := by
    have hA : ¬(results.all (fun r => r == HandlerOutcome.success) = true) := by
      simp only [List.all_eq_true, beq_iff_eq]
      intro hall
      exact HandlerOutcome.noConfusion (hall _ hperm)
    have hT : ¬(results.any (fun r => r == HandlerOutcome.transient) = true) := by
      simp only [List.any_eq_true, beq_iff_eq]
      rintro ⟨r, hr, rfl⟩
      exact htrans hr
    simp [dispatchDecision, hA, hT]
  refine ⟨hdec, ?_, ?_, ?_⟩
  · rw [hdec]; rfl
  · rw [hdec]
    simp [applyDecision, ConsumerGroupState.deadLetterMsg]
  · rw [hdec]
    intro p hp
    simp only [applyDecision, ConsumerGroupState.deadLetterMsg,
      List.mem_filter] at hp
    simpa using hp.2

/-- Witness for C8 at a concrete permanently-failing dispatch. -/
theorem permanent_failure_dead_letter_routing_witness :
    HandlerOutcome.permanent ∈ [HandlerOutcome.permanent] ∧
    (applyDecision (dispatchDecision [HandlerOutcome.permanent])
        demoGroup 5 quoteAcceptedSeven "schema violation" 3 99).dead_letters
      = [{ message_id := 5, event := quoteAcceptedSeven,
           error_message := "schema violation", attempt_count := 3, failed_at := 99 }] :=
  ⟨by decide,
   (permanent_failure_dead_letter_routing [HandlerOutcome.permanent]
      demoGroup 5 quoteAcceptedSeven "schema violation" 3 99
      (by decide) (by decide)).2.1⟩

/-! ## Saga fan-out and failure isolation -/

/-- The behavior of one handler lane of the fan-out: the handler's persisted
effect and the outcome classification of its execution. -/
structure HandlerBehavior where
  effect : BizState → Event → BizState
  outcome : Event → HandlerOutcome

/-- Modelled from the spec: one consumer-group lane of the `PolicyCreated`
fan-out — on success the handler's effect is applied and the message is
acknowledged; on a permanent failure no effect is applied and the message is
dead-lettered; on a transient failure no effect is applied and the message
stays pending for redelivery.  Each lane retries/dead-letters independently. -/
def runLane (b : HandlerBehavior) (s : BizState) (e : Event)
    (g : ConsumerGroupState) (mid attempt now : Nat) :
    BizState × ConsumerGroupState :=
  match b.outcome e with
  | .success => (b.effect s e, g.ackMsg mid)
  | .transient => (s, g.bumpAttempt mid)
  | .permanent => (s, g.deadLetterMsg mid e "permanent handler failure" attempt now)

/-- Result of fanning one `PolicyCreated` event out to its three independent
consumer groups (PDF generation, commission calculation, notification). -/
structure FanOutResult where
  biz : BizState
  gPdf : ConsumerGroupState
  gComm : ConsumerGroupState
  gNotif : ConsumerGroupState
deriving Repr

/-- Modelled from the spec: the saga fan-out — `PolicyCreated` is broadcast to
three independent handler lanes, each with its own consumer group, retry and
dead-letter policy; no lane's outcome gates another lane. -/
def fanOutPolicyCreated (pdfB commB notifB : HandlerBehavior) (s : BizState)
    (e : Event) (gPdf gComm gNotif : ConsumerGroupState)
    (mid attempt now : Nat) : FanOutResult :=
  let pdfRes := runLane pdfB s e gPdf mid attempt now
  let commRes := runLane commB pdfRes.1 e gComm mid attempt now
  let notifRes := runLane notifB commRes.1 e gNotif mid attempt now
  { biz := notifRes.1, gPdf := pdfRes.2, gComm := commRes.2, gNotif := notifRes.2 }

/-- The PDF lane running its real handler successfully. -/
def pdfLaneOk : HandlerBehavior :=
  { effect := PolicyPDFGenerationHandler.handle, outcome := fun _ => .success }

/-- The commission lane running its real handler successfully. -/
def commissionLaneOk : HandlerBehavior :=
  { effect := CommissionCalculationHandler.handle, outcome := fun _ => .success }

/-- The notification lane running its real handler successfully. -/
def notificationLaneOk : HandlerBehavior :=
  { effect := PolicyEmailNotificationHandler.handle, outcome := fun _ => .success }

/-- An injected permanently-failing notification handler: it raises a
non-retryable error and applies no effect. -/
def notificationLaneFailing : HandlerBehavior :=
  { effect := fun s _ => s, outcome := fun _ => .permanent }

theorem email_handle_preserves_other_tables (s : BizState) (e : Event) :
    (PolicyEmailNotificationHandler.handle s e).commissions = s.commissions ∧
    (PolicyEmailNotificationHandler.handle s e).documents = s.documents ∧
    (PolicyEmailNotificationHandler.handle s e).policies = s.policies := by
  simp only [PolicyEmailNotificationHandler]
  cases hp : e.payload with
  | policyCreated pid qid prem b m a =>
      by_cases h : email_sent s pid = true <;> simp [hp, h]
  | quoteAccepted qid prem => simp [hp]
  | generic tag => simp [hp]

/-- C7: failure isolation.  With the notification handler injected to fail
permanently, the persisted effects of the commission and PDF handlers (and the
policy table) are exactly the same as in the run where the notification
handler succeeds, the PDF and commission lanes acknowledge their message in
both runs with identical group states, and the notification lane's message is
dead-lettered with the full event. -/
theorem failure_isolation_fan_out (s : BizState) (e : Event)
    (gPdf gComm gNotif : ConsumerGroupState) (mid attempt now : Nat) :
    (fanOutPolicyCreated pdfLaneOk commissionLaneOk notificationLaneFailing
        s e gPdf gComm gNotif mid attempt now).biz.commissions
      = (fanOutPolicyCreated pdfLaneOk commissionLaneOk notificationLaneOk
        s e gPdf gComm gNotif mid attempt now).biz.commissions ∧
    (fanOutPolicyCreated pdfLaneOk commissionLaneOk notificationLaneFailing
        s e gPdf gComm gNotif mid attempt now).biz.documents
      = (fanOutPolicyCreated pdfLaneOk commissionLaneOk notificationLaneOk
        s e gPdf gComm gNotif mid attempt now).biz.documents ∧
    (fanOutPolicyCreated pdfLaneOk commissionLaneOk notificationLaneFailing
        s e gPdf gComm gNotif mid attempt now).biz.policies
      = (fanOutPolicyCreated pdfLaneOk commissionLaneOk notificationLaneOk
        s e gPdf gComm gNotif mid attempt now).biz.policies ∧
    (fanOutPolicyCreated pdfLaneOk commissionLaneOk notificationLaneFailing
        s e gPdf gComm gNotif mid attempt now).gPdf
      = (fanOutPolicyCreated pdfLaneOk commissionLaneOk notificationLaneOk
        s e gPdf gComm gNotif mid attempt now).gPdf ∧
    (fanOutPolicyCreated pdfLaneOk commissionLaneOk notificationLaneFailing
        s e gPdf gComm gNotif mid attempt now).gComm
      = (fanOutPolicyCreated pdfLaneOk commissionLaneOk notificationLaneOk
        s e gPdf gComm gNotif mid attempt now).gComm ∧
    mid ∈ (fanOutPolicyCreated pdfLaneOk commissionLaneOk notificationLaneFailing
        s e gPdf gComm gNotif mid attempt now).gPdf.acked ∧
    mid ∈ (fanOutPolicyCreated pdfLaneOk commissionLaneOk notificationLaneFailing
        s e gPdf gComm gNotif mid attempt now).gComm.acked ∧
    (∃ dl ∈ (fanOutPolicyCreated pdfLaneOk commissionLaneOk notificationLaneFailing
        s e gPdf gComm gNotif mid attempt now).gNotif.dead_letters,
      dl.event = e ∧ dl.message_id = mid) := by
  have hpres := email_handle_preserves_other_tables
    ((runLane commissionLaneOk
        (runLane pdfLaneOk s e gPdf mid attempt now).1 e gComm mid attempt now).1) e
  refine ⟨?_, ?_, ?_, rfl, rfl, ?_, ?_, ?_⟩
  · simpa [fanOutPolicyCreated, runLane, notificationLaneFailing,
      notificationLaneOk] using hpres.1.symm
  · simpa [fanOutPolicyCreated, runLane, notificationLaneFailing,
      notificationLaneOk] using hpres.2.1.symm
  · simpa [fanOutPolicyCreated, runLane, notificationLaneFailing,
      notificationLaneOk] using hpres.2.2.symm
  · simp [fanOutPolicyCreated, runLane, pdfLaneOk, ConsumerGroupState.ackMsg]
  · simp [fanOutPolicyCreated, runLane, commissionLaneOk, ConsumerGroupState.ackMsg]
  · refine ⟨⟨mid, e, "permanent handler failure", attempt, now⟩, ?_, rfl, rfl⟩
    simp [fanOutPolicyCreated, runLane, notificationLaneFailing,
      ConsumerGroupState.deadLetterMsg]

/-! ## Per-aggregate ordering -/

/-- Modelled from the spec: partitioning the stream by `aggregate_id` — the
subsequence of the creation-ordered log consisting of one aggregate's events,
the stream a single partition worker consumes. -/
def partitionStream (log : List Event) (agg : Nat) : List Event :=
  log.filter (fun e => e.aggregate_id == agg)

/-- Append a creation-ordered batch of events to the store, in order. -/
def appendAll (s : EventStore) (log : List Event) : EventStore :=
  log.foldl (fun st e => (st.append e).1) s

/-- A single partition worker folding its handler over the delivered events,
in stream order. -/
def processWith (h : BizState → Event → BizState) (s : BizState)
    (es : List Event) : BizState :=
  es.foldl h s

theorem appendAll_records (log : List Event) :
    ∀ (s : EventStore),
      (∀ e ∈ log, s.findByEventId e.event_id = none) →
      (log.map Event.event_id).Nodup →
      (appendAll s log).records.map StoredEventRecord.event
        = s.records.map StoredEventRecord.event ++ log := by
  induction log with
  | nil =>
      intro s _ _
      simp [appendAll]
  | cons e es ih =>
      intro s hfresh hnodup
      have hnone : s.findByEventId e.event_id = none := hfresh e (by simp)
      have hstep : appendAll s (e :: es)
          = appendAll
            { records := s.records ++ [{ event := e, sequence_number := s.nextSequence }] }
            es := by
        simp [appendAll, EventStore.append, hnone]
      simp only [List.map_cons, List.nodup_cons, List.mem_map] at hnodup
      have hfresh' : ∀ e' ∈ es, EventStore.findByEventId
          { records := s.records ++ [{ event := e, sequence_number := s.nextSequence }] }
          e'.event_id = none := by
        intro e' he'
        have h1 : s.findByEventId e'.event_id = none := hfresh e' (by simp [he'])
        have h2 : ¬(e.event_id = e'.event_id) := by
          intro hc
          exact hnodup.1 ⟨e', he', hc.symm⟩
        have hb : (e.event_id == e'.event_id) = false := by simpa using h2
        unfold EventStore.findByEventId at h1 ⊢
        simp [List.find?_append, h1, List.find?, hb]
      rw [hstep, ih _ hfresh' hnodup.2]
      simp

/-- C5: per-aggregate ordering.  For two events `e1`, `e2` on the same
aggregate with `e1` created before `e2` (that is, `e1` precedes `e2` in the
creation-ordered log): the Event Store appends the log in creation order, the
aggregate's partition stream delivers `e1` strictly before `e2`, and the state
in which `e2` is delivered to the single partition worker already has the
worker's handler applied to `e1` (effects of `e1` visible before `e2` is
delivered).  No claim is made about events of different aggregates — the
design gives them no ordering guarantee. -/
theorem per_aggregate_ordering (xs ys zs : List Event) (e1 e2 : Event) (a : Nat)
    (h1 : e1.aggregate_id = a) (h2 : e2.aggregate_id = a)
    (hnodup : ((xs ++ e1 :: ys ++ e2 :: zs).map Event.event_id).Nodup) :
    (appendAll emptyStore (xs ++ e1 :: ys ++ e2 :: zs)).records.map
        StoredEventRecord.event
      = xs ++ e1 :: ys ++ e2 :: zs ∧
    (∃ us vs ws, partitionStream (xs ++ e1 :: ys ++ e2 :: zs) a
        = us ++ e1 :: vs ++ e2 :: ws ∧
      ∀ (h : BizState → Event → BizState) (s : BizState),
        processWith h s (us ++ e1 :: vs)
          = processWith h (h (processWith h s us) e1) vs) := by
  constructor
  · have := appendAll_records (xs ++ e1 :: ys ++ e2 :: zs) emptyStore
      (by intro e _; simp [emptyStore, EventStore.findByEventId]) hnodup
    simpa [emptyStore] using this
  · refine ⟨partitionStream xs a, partitionStream ys a, partitionStream zs a, ?_, ?_⟩
    · simp [partitionStream, List.filter_append, h1, h2]
    · intro h s
      simp [processWith, List.foldl_append]

/-- Concrete events on aggregate 42 for the ordering witness. -/
def eventOne : Event :=
  { event_id := 1, event_type := "PolicyCreated", aggregate_type := "policy",
    aggregate_id := 42, payload := .generic "first", occurred_at := 1 }

/-- Second concrete event on aggregate 42 for the ordering witness. -/
def eventTwo : Event :=
  { event_id := 2, event_type := "PolicyCancelled", aggregate_type := "policy",
    aggregate_id := 42, payload := .generic "second", occurred_at := 2 }

/-- Witness for C5 at a concrete two-event log on one aggregate. -/
theorem per_aggregate_ordering_witness :
    (appendAll emptyStore ([] ++ eventOne :: [] ++ eventTwo :: [])).records.map
        StoredEventRecord.event
      = [] ++ eventOne :: [] ++ eventTwo :: [] ∧
    (∃ us vs ws, partitionStream ([] ++ eventOne :: [] ++ eventTwo :: []) 42
        = us ++ eventOne :: vs ++ eventTwo :: ws ∧
      ∀ (h : BizState → Event → BizState) (s : BizState),
        processWith h s (us ++ eventOne :: vs)
          = processWith h (h (processWith h s us) eventOne) vs) :=
  per_aggregate_ordering [] [] [] eventOne eventTwo 42 rfl rfl (by decide)

/-! ## Accept-quote flow and the unique-policy invariant -/

/-- The `QuoteAccepted` event the accept endpoint publishes. -/
def quoteAcceptedEvent (eid qid : Nat) (prem : ℚ) : Event :=
  { event_id := eid
    event_type := "QuoteAccepted"
    aggregate_type := "quote"
    aggregate_id := qid
    payload := .quoteAccepted qid prem
    occurred_at := 0 }

/-- Modelled from the spec: insert-if-not-exists on the policies table — the
policy row's idempotency is derived from the UNIQUE constraint on
`policies.quote_id`. -/
def createPolicyIfAbsent (s : BizState) (qid : Nat) : BizState :=
  if policy_exists s qid then s
  else
    { s with policies := s.policies ++
        [{ policy_id := next_policy_id s, quote_id := qid,
           policy_number := "INS-2025-" ++ toString (next_policy_id s),
           status := "active" }] }

/-- The whole application state: business tables plus the publisher-side
store and bus, plus the id generator for new events. -/
structure AppState where
  biz : BizState
  sys : PublisherState
  next_event_id : Nat

def initialAppState : AppState :=
  { biz := emptyBiz, sys := { store := emptyStore, bus := [] }, next_event_id := 0 }

/-- The quote-status update of the accept endpoint. -/
def markQuoteAccepted (quotes : List Quote) (qid : Nat) : List Quote :=
  quotes.map (fun q => if q.quote_id == qid then { q with status := "accepted" } else q)

/-- Modelled from the spec: `POST /api/v1/policies/{quote_id}/accept` — update
the quote status to accepted, create the policy record synchronously inside
the API call (for the immediate response), then publish the `QuoteAccepted`
event (Event Store write, then Stream Bus). -/
def acceptQuote (st : AppState) (qid : Nat) (prem : ℚ) : AppState :=
  let biz1 := { st.biz with quotes := markQuoteAccepted st.biz.quotes qid }
  let biz2 := createPolicyIfAbsent biz1 qid
  { biz := biz2
    sys := (publish true st.sys (quoteAcceptedEvent st.next_event_id qid prem)).1
    next_event_id := st.next_event_id + 1 }

/-- At-least-once (re)delivery of a stored event to a handler. -/
def deliverStored (st : AppState) (H : Handler) (e : Event) : AppState :=
  { st with biz := H.handle st.biz e }

/-- Modelled from the spec: the reachable states of the system — from the
empty initial state, by accepting quotes and by (re)delivering any stored
event to any registered handler, any number of times (redelivery possible). -/
inductive Reachable : AppState → Prop where
  | init : Reachable initialAppState
  | accept (st : AppState) (qid : Nat) (prem : ℚ) :
      Reachable st → Reachable (acceptQuote st qid prem)
  | redeliver (st : AppState) (env : StakeholderDirectory) (t : String)
      (H : Handler) (rec : StoredEventRecord) :
      Reachable st → H ∈ registry env t → rec ∈ st.sys.store.records →
      Reachable (deliverStored st H rec.event)

theorem insert_keeps_at_most_one (l : List Policy) (p : Policy)
    (habs : l.any (fun x => x.quote_id == p.quote_id) = false)
    (hinv : ∀ q, l.countP (fun x => x.quote_id == q) ≤ 1) :
    ∀ q, (l ++ [p]).countP (fun x => x.quote_id == q) ≤ 1 := by
  intro q
  rw [List.countP_append]
  by_cases hq : p.quote_id = q
  · have hall : ∀ x ∈ l, ¬((x.quote_id == p.quote_id) = true) := by
      simpa [List.any_eq_false] using habs
    have h0 : l.countP (fun x => x.quote_id == q) = 0 := by
      rw [List.countP_eq_zero]
      intro x hx
      rw [← hq]
      exact hall x hx
    simp [h0, List.countP_cons, hq]
  · have h1 : ([p].countP (fun x => x.quote_id == q)) = 0 := by
      simp [List.countP_cons, hq]
    simpa [h1] using hinv q

theorem exists_append_left (l l' : List Policy) (q : Nat)
    (h : l.any (fun x => x.quote_id == q) = true) :
    (l ++ l').any (fun x => x.quote_id == q) = true := by
  simp [List.any_append, h]

theorem createPolicyIfAbsent_creates (s : BizState) (qid : Nat) :
    policy_exists (createPolicyIfAbsent s qid) qid = true := by
  unfold createPolicyIfAbsent
  by_cases h : policy_exists s qid = true
  · rw [if_pos h]; exact h
  · rw [if_neg h]
    simp [policy_exists, List.any_append]

theorem createPolicyIfAbsent_exists_mono (s : BizState) (qid q : Nat)
    (h : policy_exists s q = true) :
    policy_exists (createPolicyIfAbsent s qid) q = true := by
  unfold createPolicyIfAbsent
  by_cases hex : policy_exists s qid = true
  · rw [if_pos hex]; exact h
  · rw [if_neg hex]
    have h' : s.policies.any (fun x => x.quote_id == q) = true := h
    simp [policy_exists, List.any_append, h']

theorem createPolicyIfAbsent_keeps_at_most_one (s : BizState) (qid : Nat)
    (hinv : ∀ q, countPoliciesFor s q ≤ 1) :
    ∀ q, countPoliciesFor (createPolicyIfAbsent s qid) q ≤ 1 := by
  intro q
  unfold createPolicyIfAbsent
  by_cases hex : policy_exists s qid = true
  · rw [if_pos hex]; exact hinv q
  · have hk := insert_keeps_at_most_one s.policies
      { policy_id := next_policy_id s, quote_id := qid,
        policy_number := "INS-2025-" ++ toString (next_policy_id s),
        status := "active" }
      (Bool.eq_false_iff.mpr hex) (fun q' => hinv q') q
    rw [if_neg hex]
    simpa [countPoliciesFor] using hk

theorem commission_handle_policies (s : BizState) (e : Event) :
    (CommissionCalculationHandler.handle s e).policies = s.policies := by
  simp only [CommissionCalculationHandler]
  cases hp : e.payload with
  | policyCreated pid qid prem b m a =>
      by_cases h : commissions_exist_for_policy s pid = true <;> simp [hp, h]
  | quoteAccepted qid prem => simp [hp]
  | generic tag => simp [hp]

theorem pdf_handle_policies (s : BizState) (e : Event) :
    (PolicyPDFGenerationHandler.handle s e).policies = s.policies := by
  simp only [PolicyPDFGenerationHandler]
  cases hp : e.payload with
  | policyCreated pid qid prem b m a =>
      by_cases h : document_exists s pid = true <;> simp [hp, h]
  | quoteAccepted qid prem => simp [hp]
  | generic tag => simp [hp]

theorem email_handle_policies (s : BizState) (e : Event) :
    (PolicyEmailNotificationHandler.handle s e).policies = s.policies := by
  simp only [PolicyEmailNotificationHandler]
  cases hp : e.payload with
  | policyCreated pid qid prem b m a =>
      by_cases h : email_sent s pid = true <;> simp [hp, h]
  | quoteAccepted qid prem => simp [hp]
  | generic tag => simp [hp]

theorem policy_creation_handle_cases (env : StakeholderDirectory)
    (s : BizState) (e : Event) :
    ((PolicyCreationHandler env).handle s e).policies = s.policies ∨
    ∃ qid prem, e.payload = .quoteAccepted qid prem ∧
      policy_exists s qid = false ∧
      ((PolicyCreationHandler env).handle s e).policies
        = s.policies ++
          [{ policy_id := next_policy_id s, quote_id := qid,
             policy_number := "INS-2025-" ++ toString (next_policy_id s),
             status := "active" }] := by
  simp only [PolicyCreationHandler]
  cases hp : e.payload with
  | quoteAccepted qid prem =>
      by_cases h : policy_exists s qid = true
      · left; simp [hp, h]
      · right
        exact ⟨qid, prem, rfl, Bool.eq_false_iff.mpr h, by simp [hp, h]⟩
  | policyCreated pid qid prem b m a => left; simp [hp]
  | generic tag => left; simp [hp]

theorem handle_preserves_policy_inv (env : StakeholderDirectory) (t : String)
    (H : Handler) (hH : H ∈ registry env t) (s : BizState) (e : Event) :
    ((∀ q, countPoliciesFor s q ≤ 1) → ∀ q, countPoliciesFor (H.handle s e) q ≤ 1) ∧
    (∀ q, policy_exists s q = true → policy_exists (H.handle s e) q = true) := by
  have hcases : H = PolicyCreationHandler env ∨ H = PolicyPDFGenerationHandler ∨
      H = CommissionCalculationHandler ∨ H = PolicyEmailNotificationHandler := by
    unfold registry at hH
    split at hH <;> simp at hH <;> tauto
  have fromEq : ∀ (s' : BizState), s'.policies = s.policies →
      ((∀ q, countPoliciesFor s q ≤ 1) → ∀ q, countPoliciesFor s' q ≤ 1) ∧
      (∀ q, policy_exists s q = true → policy_exists s' q = true) := by
    intro s' hps
    constructor
    · intro hinv q
      simpa [countPoliciesFor, hps] using hinv q
    · intro q hq
      simpa [policy_exists, hps] using hq
  rcases hcases with h | h | h | h <;> subst h
  · rcases policy_creation_handle_cases env s e with heq | ⟨qid, prem, _, habs, heq⟩
    · exact fromEq _ heq
    · constructor
      · intro hinv q
        have hk := insert_keeps_at_most_one s.policies
          { policy_id := next_policy_id s, quote_id := qid,
            policy_number := "INS-2025-" ++ toString (next_policy_id s),
            status := "active" }
          habs (fun q' => hinv q') q
        simpa [countPoliciesFor, heq] using hk
      · intro q hq
        have hm := exists_append_left s.policies
          [{ policy_id := next_policy_id s, quote_id := qid,
             policy_number := "INS-2025-" ++ toString (next_policy_id s),
             status := "active" }] q hq
        simpa [policy_exists, heq] using hm
  · exact fromEq _ (pdf_handle_policies s e)
  · exact fromEq _ (commission_handle_policies s e)
  · exact fromEq _ (email_handle_policies s e)

theorem policy_creation_noop_when_present (env : StakeholderDirectory)
    (s : BizState) (e : Event) (qid : Nat) (prem : ℚ)
    (hpay : e.payload = .quoteAccepted qid prem)
    (hex : policy_exists s qid = true) :
    (PolicyCreationHandler env).handle s e = s := by
  simp [PolicyCreationHandler, hpay, hex]

/-- C10: accepting a quote creates the Policy row synchronously inside the
API call, before the `QuoteAccepted` event is published (in every reachable
state, every stored `QuoteAccepted{qid}` has a policy for `qid` already
persisted; and directly after `acceptQuote` the policy for the accepted quote
exists); the UNIQUE constraint on `policies.quote_id` keeps at most one policy
per quote in every reachable state; and on every delivery of a stored
`QuoteAccepted`, the asynchronous `PolicyCreationHandler` finds the policy
present and creates no additional one (the delivery is a no-op). -/
theorem accept_quote_unique_policy (st : AppState) (hst : Reachable st) :
    (∀ qid, countPoliciesFor st.biz qid ≤ 1) ∧
    (∀ rec ∈ st.sys.store.records, ∀ qid prem,
      rec.event.payload = .quoteAccepted qid prem →
      policy_exists st.biz qid = true) ∧
    (∀ (env : StakeholderDirectory), ∀ rec ∈ st.sys.store.records, ∀ qid prem,
      rec.event.payload = .quoteAccepted qid prem →
      (PolicyCreationHandler env).handle st.biz rec.event = st.biz) ∧
    (∀ (st' : AppState) (qid : Nat) (prem : ℚ),
      policy_exists (acceptQuote st' qid prem).biz qid = true) := by
  have main : (∀ qid, countPoliciesFor st.biz qid ≤ 1) ∧
      (∀ rec ∈ st.sys.store.records, ∀ qid prem,
        rec.event.payload = .quoteAccepted qid prem →
        policy_exists st.biz qid = true) := by
    induction hst with
    | init =>
        refine ⟨fun qid => ?_, fun rec hrec => ?_⟩
        · simp [initialAppState, emptyBiz, countPoliciesFor]
        · simp [initialAppState, emptyStore] at hrec
    | accept st0 qid prem hr ih =>
        refine ⟨fun q => ?_, ?_⟩
        · have hk := createPolicyIfAbsent_keeps_at_most_one
            { st0.biz with quotes := markQuoteAccepted st0.biz.quotes qid } qid
            (by intro q'; simpa [countPoliciesFor] using ih.1 q') q
          simpa [acceptQuote] using hk
        · intro rec hrec qid' prem' hpay
          have hgoal : policy_exists (acceptQuote st0 qid prem).biz qid'
              = policy_exists (createPolicyIfAbsent
                  { st0.biz with quotes := markQuoteAccepted st0.biz.quotes qid } qid)
                qid' := rfl
          rw [hgoal]
          have hrec' : rec ∈ ((st0.sys.store.append
              (quoteAcceptedEvent st0.next_event_id qid prem)).1).records := by
            simpa [acceptQuote, publish] using hrec
          cases hfind : st0.sys.store.findByEventId
              (quoteAcceptedEvent st0.next_event_id qid prem).event_id with
          | some r =>
              have hrec0 : rec ∈ st0.sys.store.records := by
                simpa [EventStore.append, hfind] using hrec'
              exact createPolicyIfAbsent_exists_mono _ qid qid'
                (ih.2 rec hrec0 qid' prem' hpay)
          | none =>
              have hrec2 : rec ∈ st0.sys.store.records ++
                  [{ event := quoteAcceptedEvent st0.next_event_id qid prem,
                     sequence_number := st0.sys.store.nextSequence }] := by
                simpa [EventStore.append, hfind] using hrec'
              rcases List.mem_append.mp hrec2 with hold | hnew
              · exact createPolicyIfAbsent_exists_mono _ qid qid'
                  (ih.2 rec hold qid' prem' hpay)
              · have heq : rec = ⟨quoteAcceptedEvent st0.next_event_id qid prem,
                    st0.sys.store.nextSequence⟩ := by
                  simpa using hnew
                have hqp : qid = qid' ∧ prem = prem' := by
                  simpa [heq, quoteAcceptedEvent] using hpay
                rw [← hqp.1]
                exact createPolicyIfAbsent_creates _ qid
    | redeliver st0 env t H rec hr hH hrec ih =>
        refine ⟨fun q => ?_, ?_⟩
        · have hk := (handle_preserves_policy_inv env t H hH st0.biz rec.event).1 ih.1 q
          simpa [deliverStored] using hk
        · intro rec' hrec' qid prem hpay
          have h0 := ih.2 rec' (by simpa [deliverStored] using hrec') qid prem hpay
          have hm := (handle_preserves_policy_inv env t H hH st0.biz rec.event).2 qid h0
          simpa [deliverStored] using hm
  refine ⟨main.1, main.2, ?_, ?_⟩
  · intro env rec hrec qid prem hpay
    exact policy_creation_noop_when_present env st.biz rec.event qid prem hpay
      (main.2 rec hrec qid prem hpay)
  · intro st' qid prem
    exact createPolicyIfAbsent_creates
      { st'.biz with quotes := markQuoteAccepted st'.biz.quotes qid } qid

/-- Witness for C10 at the initial reachable state. -/
theorem accept_quote_unique_policy_witness :
    (∀ qid, countPoliciesFor initialAppState.biz qid ≤ 1) ∧
    (∀ rec ∈ initialAppState.sys.store.records, ∀ qid prem,
      rec.event.payload = .quoteAccepted qid prem →
      policy_exists initialAppState.biz qid = true) ∧
    (∀ (env : StakeholderDirectory), ∀ rec ∈ initialAppState.sys.store.records,
      ∀ qid prem, rec.event.payload = .quoteAccepted qid prem →
      (PolicyCreationHandler env).handle initialAppState.biz rec.event
        = initialAppState.biz) ∧
    (∀ (st' : AppState) (qid : Nat) (prem : ℚ),
      policy_exists (acceptQuote st' qid prem).biz qid = true) :=
  accept_quote_unique_policy initialAppState Reachable.init

end InsuranceCRM
